import Mathlib

/-!
Verification of fairseq/modules/transformer_sentence_encoder_layer.py
(classes Adapter and TransformerSentenceEncoderLayer).

Shallow embedding conventions:
- An activation tensor of conceptual shape (sequence length, batch, embedding
  dim) is a nested list of rationals; the trailing dimension holds the
  per-position embedding vector.
- The external collaborators (multi-head self-attention, LayerNorm, the
  resolved activation function) are fields of the layer holding arbitrary
  functions, exactly the handles the Python object stores after construction.
- nn.Linear is embedded concretely as a weight matrix plus bias, applied to
  the trailing dimension.
- F.dropout is embedded with an explicit randomness source (a rational draw
  per element, supplied by an indexed noise function): in training mode an
  element whose draw falls below the probability is zeroed and survivors are
  rescaled by 1/(1-p); outside training mode the input is returned unchanged,
  which is the documented torch semantics.
- The python assert in forward is embedded by returning none (the raised
  AssertionError) and some for a completed call.
-/

abbrev Vec := List ℚ

abbrev Tensor := List (List (List ℚ))

/-- Dot product of two vectors (trailing-dimension contraction). -/
def dot (a b : Vec) : ℚ := (List.zipWith (· * ·) a b).sum

/-- Embedding of torch.nn.Linear: a weight matrix (one row per output
feature) and a bias vector. -/
structure Linear where
  weight : List Vec
  bias : Vec

/-- Application of a Linear to one trailing-dimension vector:
row-by-row dot product plus bias. -/
def Linear.apply (l : Linear) (v : Vec) : Vec :=
  List.zipWith (fun row b => dot row v + b) l.weight l.bias

/-- Apply a vector-to-vector function (a Linear, a LayerNorm) over the
trailing dimension of a tensor. -/
def mapVec (f : Vec → Vec) (t : Tensor) : Tensor :=
  t.map (fun row => row.map f)

/-- Apply a scalar function (an activation) elementwise over a tensor. -/
def mapT (f : ℚ → ℚ) (t : Tensor) : Tensor :=
  t.map (fun row => row.map (fun v => v.map f))

/-- Elementwise tensor addition (the + between same-shaped torch tensors). -/
def addT (a b : Tensor) : Tensor :=
  List.zipWith (fun ra rb => List.zipWith (fun va vb => List.zipWith (· + ·) va vb) ra rb) a b

/-- Indexed map over a list, counting from a start index. -/
def idxMapFrom (f : ℕ → α → β) : ℕ → List α → List β
  | _, [] => []
  | i, a :: l => f i a :: idxMapFrom f (i + 1) l

/-- Indexed map over a list from index 0. -/
def idxMap (f : ℕ → α → β) (l : List α) : List β := idxMapFrom f 0 l

/-- Embedding of torch.nn.functional.dropout(x, p, training): in training
mode each element is zeroed when its uniform draw (from the explicit noise
source, indexed by position) is below p, and kept rescaled by 1/(1-p)
otherwise; with training = false the input is returned unchanged. -/
def F.dropout (p : ℚ) (training : Bool) (noise : ℕ → ℕ → ℕ → ℚ) (x : Tensor) : Tensor :=
  if training then
    idxMap (fun i row =>
      idxMap (fun j v =>
        idxMap (fun k a => if noise i j k < p then 0 else a / (1 - p)) v) row) x
  else x

/-- Embedding of class Adapter: two owned Linear projections and the resolved
activation function (utils.get_activation_fn is an external collaborator, so
the already-resolved function is stored, as in the Python object). -/
structure Adapter where
  fc1 : Linear
  fc2 : Linear
  activation_fn : ℚ → ℚ

/-- Adapter.forward: return self.fc2(self.activation_fn(self.fc1(x))) + x. -/
def Adapter.forward (a : Adapter) (x : Tensor) : Tensor :=
  addT (mapVec a.fc2.apply (mapT a.activation_fn (mapVec a.fc1.apply x))) x

/-- Embedding of a constructed TransformerSentenceEncoderLayer: the
sub-module handles the Python object holds after __init__.  self_attn is the
external MultiheadAttention collaborator as a function of (query, key, value,
key_padding_mask, need_weights, attn_mask); the LayerNorms are external
per-vector functions; fc1/fc2 are the concrete feed-forward Linears; the two
adapters are present or absent (hasattr) via Option; training is the module
mode flag gating dropout. -/
structure TransformerSentenceEncoderLayer where
  embedding_dim : ℕ
  dropout : ℚ
  activation_dropout : ℚ
  activation_fn : ℚ → ℚ
  self_attn : Tensor → Tensor → Tensor → Option Tensor → Bool → Option Tensor → Tensor × Option Tensor
  self_attn_layer_norm : Vec → Vec
  fc1 : Linear
  fc2 : Linear
  final_layer_norm : Vec → Vec
  self_attn_adapter : Option Adapter
  ff_adapter : Option Adapter
  training : Bool

/-- Construction-time configuration of the layer (the __init__ keyword
arguments, with the Python defaults).  The adapter dimensions are Options to
model the Python default None; truthiness of an Option is falsity of none
and of some 0, matching the Python if on an int-or-None. -/
structure LayerConfig where
  embedding_dim : ℕ := 768
  ffn_embedding_dim : ℕ := 3072
  num_attention_heads : ℕ := 8
  dropout : ℚ := 1/10
  attention_dropout : ℚ := 1/10
  activation_dropout : ℚ := 1/10
  add_bias_kv : Bool := false
  add_zero_attn : Bool := false
  export_flag : Bool := false
  self_attn_adapter_dim : Option ℕ := none
  ffn_adapter_dim : Option ℕ := none

/-- Python truthiness of an optional integer: None and 0 are falsy. -/
def truthy : Option ℕ → Bool
  | none => false
  | some n => n != 0

/-- The externally produced values __init__ consumes: the constructed
MultiheadAttention and LayerNorm collaborators, the randomly initialized
Linear parameters (for the feed-forward pair and for the adapters, should
they be built), the activation function resolved by name, and the module
training flag. -/
structure InitParams where
  self_attn : Tensor → Tensor → Tensor → Option Tensor → Bool → Option Tensor → Tensor × Option Tensor
  self_attn_layer_norm : Vec → Vec
  final_layer_norm : Vec → Vec
  fc1 : Linear
  fc2 : Linear
  self_attn_adapter_fc1 : Linear
  self_attn_adapter_fc2 : Linear
  ff_adapter_fc1 : Linear
  ff_adapter_fc2 : Linear
  activation_fn : ℚ → ℚ
  training : Bool

/-- TransformerSentenceEncoderLayer.__init__: stores the collaborators and
builds each Adapter only under the truthiness test on its configured
bottleneck dimension (the Python if self_attn_adapter_dim: / if
ffn_adapter_dim:), so a falsy dimension leaves the attribute absent. -/
def mkLayer (cfg : LayerConfig) (p : InitParams) : TransformerSentenceEncoderLayer :=
  { embedding_dim := cfg.embedding_dim
    dropout := cfg.dropout
    activation_dropout := cfg.activation_dropout
    activation_fn := p.activation_fn
    self_attn := p.self_attn
    self_attn_layer_norm := p.self_attn_layer_norm
    fc1 := p.fc1
    fc2 := p.fc2
    final_layer_norm := p.final_layer_norm
    self_attn_adapter :=
      if truthy cfg.self_attn_adapter_dim then
        some ⟨p.self_attn_adapter_fc1, p.self_attn_adapter_fc2, p.activation_fn⟩
      else none
    ff_adapter :=
      if truthy cfg.ffn_adapter_dim then
        some ⟨p.ff_adapter_fc1, p.ff_adapter_fc2, p.activation_fn⟩
      else none
    training := p.training }

/-- TransformerSentenceEncoderLayer.forward, line by line.  noise is the
randomness source consumed by the three F.dropout call sites (indexed 0, 1,
2 in program order).  The leading assert (self_attn_mask is None) is the
none branch; a completed call returns some (output, attn). -/
def TransformerSentenceEncoderLayer.forward
    (L : TransformerSentenceEncoderLayer) (noise : ℕ → ℕ → ℕ → ℕ → ℚ)
    (x : Tensor)
    (self_attn_mask self_attn_padding_mask extra_attention_mask : Option Tensor) :
    Option (Tensor × Option Tensor) :=
  if self_attn_mask.isSome then none
  else
    let residual := x
    let ar := L.self_attn x x x self_attn_padding_mask false extra_attention_mask
    let x := ar.1
    let attn := ar.2
    let x := match L.self_attn_adapter with
      | some a => a.forward x
      | none => x
    let x := F.dropout L.dropout L.training (noise 0) x
    let x := addT residual x
    let x := mapVec L.self_attn_layer_norm x
    let residual := x
    let x := mapT L.activation_fn (mapVec L.fc1.apply x)
    let x := F.dropout L.activation_dropout L.training (noise 1) x
    let x := mapVec L.fc2.apply x
    let x := F.dropout L.dropout L.training (noise 2) x
    let x := match L.ff_adapter with
      | some a => a.forward x
      | none => x
    let x := addT residual x
    let x := mapVec L.final_layer_norm x
    some (x, attn)

/-- The sub-module invocations forward can perform, in program order:
self-attention, the optional self-attention-side adapter, the post-attention
dropout, the post-attention LayerNorm, fc1, the activation, activation
dropout, fc2, the post-feed-forward dropout, the optional feed-forward-side
adapter, the final LayerNorm. -/
inductive SubModuleCall where
  | selfAttnCall
  | selfAttnAdapterCall
  | dropoutAfterAttn
  | selfAttnLayerNormCall
  | fc1Call
  | activationCall
  | activationDropoutCall
  | fc2Call
  | dropoutAfterFfn
  | ffAdapterCall
  | finalLayerNormCall
  deriving DecidableEq

/-- forward instrumented with the list of sub-module invocations it performs,
in program order.  The failing assert branch performs none of them; the
result component mirrors forward statement by statement. -/
def TransformerSentenceEncoderLayer.forwardTrace
    (L : TransformerSentenceEncoderLayer) (noise : ℕ → ℕ → ℕ → ℕ → ℚ)
    (x : Tensor)
    (self_attn_mask self_attn_padding_mask extra_attention_mask : Option Tensor) :
    List SubModuleCall × Option (Tensor × Option Tensor) :=
  if self_attn_mask.isSome then ([], none)
  else
    let residual := x
    let ar := L.self_attn x x x self_attn_padding_mask false extra_attention_mask
    let x := ar.1
    let attn := ar.2
    let x := match L.self_attn_adapter with
      | some a => a.forward x
      | none => x
    let x := F.dropout L.dropout L.training (noise 0) x
    let x := addT residual x
    let x := mapVec L.self_attn_layer_norm x
    let residual := x
    let x := mapT L.activation_fn (mapVec L.fc1.apply x)
    let x := F.dropout L.activation_dropout L.training (noise 1) x
    let x := mapVec L.fc2.apply x
    let x := F.dropout L.dropout L.training (noise 2) x
    let x := match L.ff_adapter with
      | some a => a.forward x
      | none => x
    let x := addT residual x
    let x := mapVec L.final_layer_norm x
    ([SubModuleCall.selfAttnCall]
      ++ (match L.self_attn_adapter with
          | some _ => [SubModuleCall.selfAttnAdapterCall]
          | none => [])
      ++ [SubModuleCall.dropoutAfterAttn, SubModuleCall.selfAttnLayerNormCall,
          SubModuleCall.fc1Call, SubModuleCall.activationCall,
          SubModuleCall.activationDropoutCall, SubModuleCall.fc2Call,
          SubModuleCall.dropoutAfterFfn]
      ++ (match L.ff_adapter with
          | some _ => [SubModuleCall.ffAdapterCall]
          | none => [])
      ++ [SubModuleCall.finalLayerNormCall],
     some (x, attn))

/-- A small concrete layer used to instantiate theorems on explicit inputs:
identity attention and norms, one-dimensional Linears, no adapters, training
mode off. -/
def evalLayer : TransformerSentenceEncoderLayer :=
  { embedding_dim := 1
    dropout := 1/2
    activation_dropout := 0
    activation_fn := fun a => a
    self_attn := fun q _ _ _ _ _ => (q, none)
    self_attn_layer_norm := fun v => v
    fc1 := ⟨[[1]], [0]⟩
    fc2 := ⟨[[1]], [0]⟩
    final_layer_norm := fun v => v
    self_attn_adapter := none
    ff_adapter := none
    training := false }

/-- C3: calling forward with a non-absent general self-attention mask fails
(returns the raised assertion, none) for every combination of the other
arguments; with that argument absent the precondition never fails and the
call completes (returns some). -/
theorem c3_general_mask_precondition
    (L : TransformerSentenceEncoderLayer) (noise : ℕ → ℕ → ℕ → ℕ → ℚ)
    (x : Tensor) (pad extra : Option Tensor) :
    (∀ m : Tensor, L.forward noise x (some m) pad extra = none) ∧
    (L.forward noise x none pad extra).isSome = true := by
  constructor
  · intro m; rfl
  · rfl

/-- C9: a completed forward call always returns a pair whose second component
is exactly the attention-weights value produced by the self-attention
primitive invoked with need_weights = false, passed through unchanged. -/
theorem c9_attention_weights_passthrough
    (L : TransformerSentenceEncoderLayer) (noise : ℕ → ℕ → ℕ → ℕ → ℚ)
    (x : Tensor) (pad extra : Option Tensor) :
    (L.forward noise x none pad extra).map Prod.snd =
      some (L.self_attn x x x pad false extra).snd := by
  rfl

/-- C8: with the layer out of training mode (dropout disabled) and fixed
parameters, the forward result does not depend on the randomness source, so
any two calls on identical inputs produce identical outputs. -/
theorem c8_inference_deterministic
    (L : TransformerSentenceEncoderLayer) (h : L.training = false)
    (noise1 noise2 : ℕ → ℕ → ℕ → ℕ → ℚ) (x : Tensor)
    (sam pad extra : Option Tensor) :
    L.forward noise1 x sam pad extra = L.forward noise2 x sam pad extra := by
  simp [TransformerSentenceEncoderLayer.forward, F.dropout, h]

/-- Witness for C8 at a concrete layer and input, with two different noise
sources. -/
theorem c8_inference_deterministic_witness :
    TransformerSentenceEncoderLayer.forward evalLayer (fun _ _ _ _ => 0)
        [[[1]]] none none none
      = TransformerSentenceEncoderLayer.forward evalLayer (fun _ _ _ _ => 1)
        [[[1]]] none none none :=
  c8_inference_deterministic evalLayer rfl (fun _ _ _ _ => 0) (fun _ _ _ _ => 1)
    [[[1]]] none none none

/-- C10: with a non-absent general self-attention mask the call fails before
any sub-module is invoked (the instrumented trace is empty and there is no
result), and the instrumented computation agrees with forward on every
input, so the failing call performs no part of the layer computation. -/
theorem c10_fail_fast_before_submodules
    (L : TransformerSentenceEncoderLayer) (noise : ℕ → ℕ → ℕ → ℕ → ℚ)
    (x : Tensor) (m : Tensor) (pad extra : Option Tensor) :
    L.forwardTrace noise x (some m) pad extra = ([], none) ∧
    ∀ sam : Option Tensor,
      (L.forwardTrace noise x sam pad extra).2 = L.forward noise x sam pad extra := by
  refine ⟨rfl, ?_⟩
  intro sam
  cases sam <;> rfl

/-- forward with the self-attention-side adapter application statement
removed (the corresponding hasattr branch deleted); otherwise identical to
forward. -/
def forwardSkipSelfAttnAdapterStep
    (L : TransformerSentenceEncoderLayer) (noise : ℕ → ℕ → ℕ → ℕ → ℚ)
    (x : Tensor)
    (self_attn_mask self_attn_padding_mask extra_attention_mask : Option Tensor) :
    Option (Tensor × Option Tensor) :=
  if self_attn_mask.isSome then none
  else
    let residual := x
    let ar := L.self_attn x x x self_attn_padding_mask false extra_attention_mask
    let x := ar.1
    let attn := ar.2
    let x := F.dropout L.dropout L.training (noise 0) x
    let x := addT residual x
    let x := mapVec L.self_attn_layer_norm x
    let residual := x
    let x := mapT L.activation_fn (mapVec L.fc1.apply x)
    let x := F.dropout L.activation_dropout L.training (noise 1) x
    let x := mapVec L.fc2.apply x
    let x := F.dropout L.dropout L.training (noise 2) x
    let x := match L.ff_adapter with
      | some a => a.forward x
      | none => x
    let x := addT residual x
    let x := mapVec L.final_layer_norm x
    some (x, attn)

/-- forward with the feed-forward-side adapter application statement removed
(the corresponding hasattr branch deleted); otherwise identical to forward. -/
def forwardSkipFfAdapterStep
    (L : TransformerSentenceEncoderLayer) (noise : ℕ → ℕ → ℕ → ℕ → ℚ)
    (x : Tensor)
    (self_attn_mask self_attn_padding_mask extra_attention_mask : Option Tensor) :
    Option (Tensor × Option Tensor) :=
  if self_attn_mask.isSome then none
  else
    let residual := x
    let ar := L.self_attn x x x self_attn_padding_mask false extra_attention_mask
    let x := ar.1
    let attn := ar.2
    let x := match L.self_attn_adapter with
      | some a => a.forward x
      | none => x
    let x := F.dropout L.dropout L.training (noise 0) x
    let x := addT residual x
    let x := mapVec L.self_attn_layer_norm x
    let residual := x
    let x := mapT L.activation_fn (mapVec L.fc1.apply x)
    let x := F.dropout L.activation_dropout L.training (noise 1) x
    let x := mapVec L.fc2.apply x
    let x := F.dropout L.dropout L.training (noise 2) x
    let x := addT residual x
    let x := mapVec L.final_layer_norm x
    some (x, attn)

/-- C6: for every configuration whose self-attention-side (respectively
feed-forward-side) adapter dimension is falsy (absent or zero), the
constructed layer holds no corresponding adapter sub-module at all, and the
forward computation equals the forward computation with that adapter
application step deleted. -/
theorem c6_adapter_structurally_absent (cfg : LayerConfig) (p : InitParams) :
    (truthy cfg.self_attn_adapter_dim = false →
      (mkLayer cfg p).self_attn_adapter = none ∧
      ∀ noise x sam pad extra,
        (mkLayer cfg p).forward noise x sam pad extra
          = forwardSkipSelfAttnAdapterStep (mkLayer cfg p) noise x sam pad extra) ∧
    (truthy cfg.ffn_adapter_dim = false →
      (mkLayer cfg p).ff_adapter = none ∧
      ∀ noise x sam pad extra,
        (mkLayer cfg p).forward noise x sam pad extra
          = forwardSkipFfAdapterStep (mkLayer cfg p) noise x sam pad extra) := by
  constructor
  · intro h
    have hnone : (mkLayer cfg p).self_attn_adapter = none := by
      simp [mkLayer, h]
    refine ⟨hnone, ?_⟩
    intro noise x sam pad extra
    simp [TransformerSentenceEncoderLayer.forward, forwardSkipSelfAttnAdapterStep, hnone]
  · intro h
    have hnone : (mkLayer cfg p).ff_adapter = none := by
      simp [mkLayer, h]
    refine ⟨hnone, ?_⟩
    intro noise x sam pad extra
    simp [TransformerSentenceEncoderLayer.forward, forwardSkipFfAdapterStep, hnone]

/-- Default configuration (all Python defaults, both adapter dims absent). -/
def evalConfig : LayerConfig := {}

/-- Concrete collaborator values for instantiating construction theorems. -/
def evalInitParams : InitParams :=
  { self_attn := fun q _ _ _ _ _ => (q, none)
    self_attn_layer_norm := fun v => v
    final_layer_norm := fun v => v
    fc1 := ⟨[[1]], [0]⟩
    fc2 := ⟨[[1]], [0]⟩
    self_attn_adapter_fc1 := ⟨[[1]], [0]⟩
    self_attn_adapter_fc2 := ⟨[[1]], [0]⟩
    ff_adapter_fc1 := ⟨[[1]], [0]⟩
    ff_adapter_fc2 := ⟨[[1]], [0]⟩
    activation_fn := fun a => a
    training := true }

/-- Witness for C6 on the default configuration (both dims absent) at a
concrete input. -/
theorem c6_adapter_structurally_absent_witness :
    (mkLayer evalConfig evalInitParams).self_attn_adapter = none ∧
    (mkLayer evalConfig evalInitParams).ff_adapter = none ∧
    (mkLayer evalConfig evalInitParams).forward (fun _ _ _ _ => 1) [[[1]]] none none none
      = forwardSkipSelfAttnAdapterStep (mkLayer evalConfig evalInitParams)
          (fun _ _ _ _ => 1) [[[1]]] none none none ∧
    (mkLayer evalConfig evalInitParams).forward (fun _ _ _ _ => 1) [[[1]]] none none none
      = forwardSkipFfAdapterStep (mkLayer evalConfig evalInitParams)
          (fun _ _ _ _ => 1) [[[1]]] none none none := by
  have h := c6_adapter_structurally_absent evalConfig evalInitParams
  have h1 := h.1 rfl
  have h2 := h.2 rfl
  exact ⟨h1.1, h2.1, h1.2 _ _ _ _ _, h2.2 _ _ _ _ _⟩

/-- The forward composition asserted by the claim that on EVERY sub-block the
adapter precedes the output dropout: identical to forward except that the
feed-forward-side adapter is applied before that sub-block's output dropout
instead of after it (the self-attention sub-block already conforms in the
code). -/
def forwardAdapterBeforeDropout
    (L : TransformerSentenceEncoderLayer) (noise : ℕ → ℕ → ℕ → ℕ → ℚ)
    (x : Tensor)
    (self_attn_mask self_attn_padding_mask extra_attention_mask : Option Tensor) :
    Option (Tensor × Option Tensor) :=
  if self_attn_mask.isSome then none
  else
    let residual := x
    let ar := L.self_attn x x x self_attn_padding_mask false extra_attention_mask
    let x := ar.1
    let attn := ar.2
    let x := match L.self_attn_adapter with
      | some a => a.forward x
      | none => x
    let x := F.dropout L.dropout L.training (noise 0) x
    let x := addT residual x
    let x := mapVec L.self_attn_layer_norm x
    let residual := x
    let x := mapT L.activation_fn (mapVec L.fc1.apply x)
    let x := F.dropout L.activation_dropout L.training (noise 1) x
    let x := mapVec L.fc2.apply x
    let x := match L.ff_adapter with
      | some a => a.forward x
      | none => x
    let x := F.dropout L.dropout L.training (noise 2) x
    let x := addT residual x
    let x := mapVec L.final_layer_norm x
    some (x, attn)

/-- A concrete layer separating the code order from the claimed order: a
feed-forward-side adapter with a bias, active output dropout (training mode,
p = 1/2, all draws kept and hence rescaled by 2), identity attention, norms
and activation, one-dimensional Linears. -/
def cexLayer : TransformerSentenceEncoderLayer :=
  { embedding_dim := 1
    dropout := 1/2
    activation_dropout := 0
    activation_fn := fun a => a
    self_attn := fun q _ _ _ _ _ => (q, none)
    self_attn_layer_norm := fun v => v
    fc1 := ⟨[[1]], [0]⟩
    fc2 := ⟨[[1]], [0]⟩
    final_layer_norm := fun v => v
    self_attn_adapter := none
    ff_adapter := some ⟨⟨[[1]], [0]⟩, ⟨[[1]], [1]⟩, fun a => a⟩
    training := true }

/-- Counterexample to C1 as stated: on cexLayer with input [[[1]]] the code
computes 16 (feed-forward adapter applied AFTER the output dropout) while
the claimed order (adapter before the output dropout on every sub-block)
computes 17. -/
theorem c1_adapter_before_dropout_counterexample :
    cexLayer.forward (fun _ _ _ _ => 1) [[[1]]] none none none
      ≠ forwardAdapterBeforeDropout cexLayer (fun _ _ _ _ => 1) [[[1]]] none none none := by
  have h1 : cexLayer.forward (fun _ _ _ _ => 1) [[[1]]] none none none
      = some ([[[16]]], none) := by
    norm_num [TransformerSentenceEncoderLayer.forward, cexLayer, F.dropout, idxMap,
      idxMapFrom, mapVec, mapT, addT, Adapter.forward, Linear.apply, dot]
  have h2 : forwardAdapterBeforeDropout cexLayer (fun _ _ _ _ => 1) [[[1]]] none none none
      = some ([[[17]]], none) := by
    norm_num [forwardAdapterBeforeDropout, cexLayer, F.dropout, idxMap,
      idxMapFrom, mapVec, mapT, addT, Adapter.forward, Linear.apply, dot]
  rw [h1, h2]
  intro h
  simp at h

/-- The self-attention sub-block in the order the code implements it:
self-attention, optional adapter, output dropout, residual add,
post-attention LayerNorm; the attention weights are carried alongside. -/
def selfAttnSubBlock (L : TransformerSentenceEncoderLayer) (noise0 : ℕ → ℕ → ℕ → ℚ)
    (x : Tensor) (pad extra : Option Tensor) : Tensor × Option Tensor :=
  let ar := L.self_attn x x x pad false extra
  let y := match L.self_attn_adapter with
    | some a => a.forward ar.1
    | none => ar.1
  let y := F.dropout L.dropout L.training noise0 y
  let y := addT x y
  (mapVec L.self_attn_layer_norm y, ar.2)

/-- The feed-forward sub-block in the order the code implements it:
activation of fc1, activation dropout, fc2, output dropout, THEN the
optional adapter, residual add, final LayerNorm. -/
def ffnSubBlock (L : TransformerSentenceEncoderLayer) (noise1 noise2 : ℕ → ℕ → ℕ → ℚ)
    (x : Tensor) : Tensor :=
  let y := mapT L.activation_fn (mapVec L.fc1.apply x)
  let y := F.dropout L.activation_dropout L.training noise1 y
  let y := mapVec L.fc2.apply y
  let y := F.dropout L.dropout L.training noise2 y
  let y := match L.ff_adapter with
    | some a => a.forward y
    | none => y
  let y := addT x y
  mapVec L.final_layer_norm y

/-- C1 amended: in the self-attention sub-block the adapter, when present,
is applied before the output dropout and before the residual add; in the
feed-forward sub-block the adapter, when present, is applied after the
output dropout and before the residual add.  forward is exactly the
composition of the two sub-blocks in these orders. -/
theorem c1_amended_adapter_placement
    (L : TransformerSentenceEncoderLayer) (noise : ℕ → ℕ → ℕ → ℕ → ℚ)
    (x : Tensor) (pad extra : Option Tensor) :
    L.forward noise x none pad extra =
      some (ffnSubBlock L (noise 1) (noise 2) (selfAttnSubBlock L (noise 0) x pad extra).1,
            (selfAttnSubBlock L (noise 0) x pad extra).2) := by
  rfl

/-- C2: the feed-forward passage of forward applies, in order, the
nonlinearity of fc1, activation dropout, fc2, output dropout, then the
feed-forward-side adapter when present, then adds the residual anchor saved
after the post-attention normalization, then applies the final
normalization. -/
theorem c2_ffn_block_order
    (L : TransformerSentenceEncoderLayer) (noise : ℕ → ℕ → ℕ → ℕ → ℚ)
    (x : Tensor) (pad extra : Option Tensor) :
    L.forward noise x none pad extra =
      (let anchor := (selfAttnSubBlock L (noise 0) x pad extra).1
       let s9 := F.dropout L.dropout L.training (noise 2)
                   (mapVec L.fc2.apply
                     (F.dropout L.activation_dropout L.training (noise 1)
                       (mapT L.activation_fn (mapVec L.fc1.apply anchor))))
       let s10 := match L.ff_adapter with
         | some a => a.forward s9
         | none => s9
       some (mapVec L.final_layer_norm (addT anchor s10),
             (selfAttnSubBlock L (noise 0) x pad extra).2)) := by
  rfl

/-- Modelled from the spec sentence for the adapter formula: the output is
up_project(nonlinearity(down_project(input))) + input, computed per
trailing-dimension vector in one pass. -/
def adapterSpecFormula (a : Adapter) (x : Tensor) : Tensor :=
  addT (mapVec (fun v => a.fc2.apply ((a.fc1.apply v).map a.activation_fn)) x) x

/-- C4: Adapter.forward computes, for every input tensor (in particular
every tensor whose trailing dimension is the embedding dimension),
up_project(nonlinearity(down_project(x))) + x with the adapter's two owned
affine transforms; the three tensor traversals of the code fuse into the
per-vector formula of the spec. -/
theorem c4_adapter_formula (a : Adapter) (x : Tensor) :
    a.forward x = adapterSpecFormula a x := by
  simp [Adapter.forward, adapterSpecFormula, mapVec, mapT, List.map_map, Function.comp_def]

/-- Pointwise: adding the zero vector of matching length is the identity. -/
theorem zipWith_add_replicate_zero (v : Vec) :
    List.zipWith (· + ·) (List.replicate v.length (0 : ℚ)) v = v := by
  induction v with
  | nil => rfl
  | cons a t ih => simp [List.replicate_succ, ih]

/-- Row level: adding a row of zero vectors of matching lengths is the
identity. -/
theorem ziprow_add_replicate_zero (D : ℕ) :
    ∀ (row : List Vec), (∀ v ∈ row, v.length = D) →
      List.zipWith (fun va vb => List.zipWith (· + ·) va vb)
        (row.map (fun _ => List.replicate D (0 : ℚ))) row = row := by
  intro row
  induction row with
  | nil => intro _; rfl
  | cons v rest ih =>
      intro hrow
      have hv : v.length = D := hrow v (by simp)
      have hhead : List.zipWith (· + ·) (List.replicate D (0 : ℚ)) v = v := by
        rw [← hv]; exact zipWith_add_replicate_zero v
      simp only [List.map_cons, List.zipWith_cons_cons, hhead]
      exact congrArg (v :: ·) (ih (fun u hu => hrow u (by simp [hu])))

/-- Tensor level: adding a same-skeleton tensor of zero vectors of matching
lengths is the identity. -/
theorem addT_map_replicate_zero (D : ℕ) :
    ∀ (x : Tensor), (∀ row ∈ x, ∀ v ∈ row, v.length = D) →
      addT (x.map (fun row => row.map (fun _ => List.replicate D (0 : ℚ)))) x = x := by
  intro x
  induction x with
  | nil => intro _; rfl
  | cons row rest ih =>
      intro hx
      have h1 := ziprow_add_replicate_zero D row (hx row (by simp))
      have h2 := ih (fun r hr => hx r (by simp [hr]))
      simp only [List.map_cons, addT, List.zipWith_cons_cons] at h2 ⊢
      rw [h1, h2]

/-- C5: when the up-projection of an Adapter yields the exact zero vector of
the embedding dimension for every input, Adapter.forward is the identity on
every tensor whose trailing dimension is that embedding dimension (the
residual-only fallback). -/
theorem c5_adapter_identity_at_zero (a : Adapter) (D : ℕ)
    (hzero : ∀ v : Vec, a.fc2.apply v = List.replicate D 0)
    (x : Tensor) (hx : ∀ row ∈ x, ∀ v ∈ row, v.length = D) :
    a.forward x = x := by
  have hfun : (fun v : Vec => a.fc2.apply (List.map a.activation_fn (a.fc1.apply v)))
      = fun _ => List.replicate D (0 : ℚ) := by
    funext v; rw [hzero]
  have hA : mapVec a.fc2.apply (mapT a.activation_fn (mapVec a.fc1.apply x))
      = x.map (fun row => row.map (fun _ => List.replicate D (0 : ℚ))) := by
    simp only [mapVec, mapT, List.map_map, Function.comp_def, hfun]
  unfold Adapter.forward
  rw [hA]
  exact addT_map_replicate_zero D x hx

/-- Witness for C5: an adapter whose projections are all-zero Linears is the
identity on a concrete input. -/
theorem c5_adapter_identity_at_zero_witness :
    Adapter.forward ⟨⟨[[0]], [0]⟩, ⟨[[0]], [0]⟩, fun a => a⟩ [[[5]]] = [[[5]]] :=
  c5_adapter_identity_at_zero ⟨⟨[[0]], [0]⟩, ⟨[[0]], [0]⟩, fun a => a⟩ 1
    (fun v => by cases v <;> simp [Linear.apply, dot])
    [[[5]]] (by simp)

/-- A tensor has conceptual shape (seq, batch, dim): outer length seq, every
row of length batch, every trailing vector of length dim. -/
def hasShape (t : Tensor) (s b d : ℕ) : Prop :=
  t.length = s ∧ ∀ row ∈ t, row.length = b ∧ ∀ v ∈ row, v.length = d

/-- idxMapFrom preserves length. -/
theorem idxMapFrom_length (f : ℕ → α → β) :
    ∀ (i : ℕ) (l : List α), (idxMapFrom f i l).length = l.length := by
  intro i l
  induction l generalizing i with
  | nil => rfl
  | cons a t ih => simp [idxMapFrom, ih]

/-- idxMap preserves length. -/
theorem idxMap_length (f : ℕ → α → β) (l : List α) :
    (idxMap f l).length = l.length :=
  idxMapFrom_length f 0 l

/-- Every element of an idxMapFrom image comes from an element of the
source. -/
theorem mem_idxMapFrom (f : ℕ → α → β) :
    ∀ (i : ℕ) (l : List α) (b : β), b ∈ idxMapFrom f i l →
      ∃ j a, a ∈ l ∧ b = f j a := by
  intro i l
  induction l generalizing i with
  | nil => intro b h; cases h
  | cons a t ih =>
      intro b h
      rcases List.mem_cons.mp h with h | h
      · exact ⟨i, a, by simp, h⟩
      · rcases ih (i + 1) b h with ⟨j, c, hc, hb⟩
        exact ⟨j, c, by simp [hc], hb⟩

/-- Every element of a zipWith image comes from elements of the sources. -/
theorem mem_zipWith (f : α → β → γ) :
    ∀ (l1 : List α) (l2 : List β) (c : γ), c ∈ List.zipWith f l1 l2 →
      ∃ a b, a ∈ l1 ∧ b ∈ l2 ∧ c = f a b := by
  intro l1
  induction l1 with
  | nil => intro l2 c h; simp at h
  | cons a t ih =>
      intro l2 c h
      cases l2 with
      | nil => simp at h
      | cons b t2 =>
          rcases List.mem_cons.mp h with h | h
          · exact ⟨a, b, by simp, by simp, h⟩
          · rcases ih t2 c h with ⟨a2, b2, ha, hb, hc⟩
            exact ⟨a2, b2, by simp [ha], by simp [hb], hc⟩

/-- F.dropout preserves shape. -/
theorem hasShape_dropout (p : ℚ) (tr : Bool) (noise : ℕ → ℕ → ℕ → ℚ)
    (t : Tensor) (s b d : ℕ) (h : hasShape t s b d) :
    hasShape (F.dropout p tr noise t) s b d := by
  obtain ⟨h1, h2⟩ := h
  unfold F.dropout
  cases tr with
  | false => exact ⟨h1, h2⟩
  | true =>
      refine ⟨by simpa [idxMap_length] using h1, ?_⟩
      intro row hrow
      rcases mem_idxMapFrom _ _ _ _ hrow with ⟨i, r0, hr0, rfl⟩
      obtain ⟨hb, hv⟩ := h2 r0 hr0
      refine ⟨by simpa [idxMap_length] using hb, ?_⟩
      intro v hvmem
      rcases mem_idxMapFrom _ _ _ _ hvmem with ⟨j, v0, hv0, rfl⟩
      simpa [idxMap_length] using hv v0 hv0

/-- mapT preserves shape. -/
theorem hasShape_mapT (f : ℚ → ℚ) (t : Tensor) (s b d : ℕ)
    (h : hasShape t s b d) : hasShape (mapT f t) s b d := by
  obtain ⟨h1, h2⟩ := h
  refine ⟨by simpa [mapT] using h1, ?_⟩
  intro row hrow
  simp only [mapT, List.mem_map] at hrow
  rcases hrow with ⟨r0, hr0, rfl⟩
  obtain ⟨hb, hv⟩ := h2 r0 hr0
  refine ⟨by simpa using hb, ?_⟩
  intro v hvmem
  simp only [List.mem_map] at hvmem
  rcases hvmem with ⟨v0, hv0, rfl⟩
  simpa using hv v0 hv0

/-- mapVec sends shape (s, b, d) to (s, b, d2) when the per-vector function
sends length d to length d2. -/
theorem hasShape_mapVec (f : Vec → Vec) (t : Tensor) (s b d d2 : ℕ)
    (hf : ∀ v : Vec, v.length = d → (f v).length = d2)
    (h : hasShape t s b d) : hasShape (mapVec f t) s b d2 := by
  obtain ⟨h1, h2⟩ := h
  refine ⟨by simpa [mapVec] using h1, ?_⟩
  intro row hrow
  simp only [mapVec, List.mem_map] at hrow
  rcases hrow with ⟨r0, hr0, rfl⟩
  obtain ⟨hb, hv⟩ := h2 r0 hr0
  refine ⟨by simpa using hb, ?_⟩
  intro v hvmem
  simp only [List.mem_map] at hvmem
  rcases hvmem with ⟨v0, hv0, rfl⟩
  exact hf v0 (hv v0 hv0)

/-- addT of two same-shape tensors has that shape. -/
theorem hasShape_addT (a b : Tensor) (s bb d : ℕ)
    (ha : hasShape a s bb d) (hb : hasShape b s bb d) :
    hasShape (addT a b) s bb d := by
  obtain ⟨ha1, ha2⟩ := ha
  obtain ⟨hb1, hb2⟩ := hb
  refine ⟨by simp [addT, List.length_zipWith, ha1, hb1], ?_⟩
  intro row hrow
  rcases mem_zipWith _ _ _ _ hrow with ⟨ra, rb, hra, hrb, rfl⟩
  obtain ⟨hraB, hraD⟩ := ha2 ra hra
  obtain ⟨hrbB, hrbD⟩ := hb2 rb hrb
  refine ⟨by simp [List.length_zipWith, hraB, hrbB], ?_⟩
  intro v hvmem
  rcases mem_zipWith _ _ _ _ hvmem with ⟨va, vb, hva, hvb, rfl⟩
  simp [List.length_zipWith, hraD va hva, hrbD vb hvb]

/-- The length of a Linear application is fixed by the parameter sizes. -/
theorem Linear.apply_length (l : Linear) (v : Vec) :
    (l.apply v).length = min l.weight.length l.bias.length := by
  simp [Linear.apply, List.length_zipWith]

/-- Adapter.forward preserves shape (s, b, d) when its up-projection has d
output features. -/
theorem hasShape_adapter_forward (a : Adapter) (s b d : ℕ)
    (h2w : a.fc2.weight.length = d) (h2b : a.fc2.bias.length = d)
    (t : Tensor) (h : hasShape t s b d) : hasShape (a.forward t) s b d := by
  unfold Adapter.forward
  refine hasShape_addT _ _ _ _ _ ?_ h
  refine hasShape_mapVec _ _ _ _ (min a.fc1.weight.length a.fc1.bias.length) d
    (fun v _ => (Linear.apply_length _ _).trans (by rw [h2w, h2b, Nat.min_self])) ?_
  refine hasShape_mapT _ _ _ _ _ ?_
  exact hasShape_mapVec _ _ _ _ d (min a.fc1.weight.length a.fc1.bias.length)
    (fun v _ => Linear.apply_length _ _) h

/-- The self-attention sub-block preserves shape, given a shape-preserving
attention collaborator, a length-preserving norm and a correctly sized
optional adapter. -/
theorem hasShape_selfAttnSubBlock (Lr : TransformerSentenceEncoderLayer) (s b d : ℕ)
    (hattn : ∀ q pad extra, hasShape q s b d →
      hasShape (Lr.self_attn q q q pad false extra).1 s b d)
    (hnorm1 : ∀ v : Vec, (Lr.self_attn_layer_norm v).length = v.length)
    (hsa : ∀ a, Lr.self_attn_adapter = some a →
      a.fc2.weight.length = d ∧ a.fc2.bias.length = d)
    (noise0 : ℕ → ℕ → ℕ → ℚ) (x : Tensor) (pad extra : Option Tensor)
    (hx : hasShape x s b d) :
    hasShape (selfAttnSubBlock Lr noise0 x pad extra).1 s b d := by
  unfold selfAttnSubBlock
  dsimp only
  refine hasShape_mapVec _ _ _ _ d d (fun v hv => (hnorm1 v).trans hv) ?_
  refine hasShape_addT _ _ _ _ _ hx ?_
  refine hasShape_dropout _ _ _ _ _ _ _ ?_
  cases hA : Lr.self_attn_adapter with
  | none => exact hattn x pad extra hx
  | some a =>
      obtain ⟨h2w, h2b⟩ := hsa a hA
      exact hasShape_adapter_forward a s b d h2w h2b _ (hattn x pad extra hx)

/-- The feed-forward sub-block preserves shape, given a length-preserving
final norm, correctly sized feed-forward Linears and a correctly sized
optional adapter. -/
theorem hasShape_ffnSubBlock (Lr : TransformerSentenceEncoderLayer) (s b d f : ℕ)
    (hnorm2 : ∀ v : Vec, (Lr.final_layer_norm v).length = v.length)
    (hfc1w : Lr.fc1.weight.length = f) (hfc1b : Lr.fc1.bias.length = f)
    (hfc2w : Lr.fc2.weight.length = d) (hfc2b : Lr.fc2.bias.length = d)
    (hff : ∀ a, Lr.ff_adapter = some a →
      a.fc2.weight.length = d ∧ a.fc2.bias.length = d)
    (noise1 noise2 : ℕ → ℕ → ℕ → ℚ) (t : Tensor) (ht : hasShape t s b d) :
    hasShape (ffnSubBlock Lr noise1 noise2 t) s b d := by
  unfold ffnSubBlock
  dsimp only
  refine hasShape_mapVec _ _ _ _ d d (fun v hv => (hnorm2 v).trans hv) ?_
  refine hasShape_addT _ _ _ _ _ ht ?_
  have hcore : hasShape (F.dropout Lr.dropout Lr.training noise2
      (mapVec Lr.fc2.apply (F.dropout Lr.activation_dropout Lr.training noise1
        (mapT Lr.activation_fn (mapVec Lr.fc1.apply t))))) s b d := by
    refine hasShape_dropout _ _ _ _ _ _ _ ?_
    refine hasShape_mapVec _ _ _ _ f d
      (fun v _ => (Linear.apply_length _ _).trans (by rw [hfc2w, hfc2b, Nat.min_self])) ?_
    refine hasShape_dropout _ _ _ _ _ _ _ ?_
    refine hasShape_mapT _ _ _ _ _ ?_
    exact hasShape_mapVec _ _ _ _ d f
      (fun v _ => (Linear.apply_length _ _).trans (by rw [hfc1w, hfc1b, Nat.min_self])) ht
  cases hA : Lr.ff_adapter with
  | none => exact hcore
  | some a =>
      obtain ⟨h2w, h2b⟩ := hff a hA
      exact hasShape_adapter_forward a s b d h2w h2b _ hcore

/-- C7: on a valid input of shape (seq s, batch b, embedding dim d), with the
external collaborators respecting their shape contracts (attention preserves
shape, the norms preserve length, the Linears are sized d to f and f to d,
any adapter up-projection has d output features), forward completes and its
first component again has shape (s, b, d). -/
theorem c7_shape_preservation
    (Lr : TransformerSentenceEncoderLayer) (s b d f : ℕ)
    (hattn : ∀ q pad extra, hasShape q s b d →
      hasShape (Lr.self_attn q q q pad false extra).1 s b d)
    (hnorm1 : ∀ v : Vec, (Lr.self_attn_layer_norm v).length = v.length)
    (hnorm2 : ∀ v : Vec, (Lr.final_layer_norm v).length = v.length)
    (hfc1w : Lr.fc1.weight.length = f) (hfc1b : Lr.fc1.bias.length = f)
    (hfc2w : Lr.fc2.weight.length = d) (hfc2b : Lr.fc2.bias.length = d)
    (hsa : ∀ a, Lr.self_attn_adapter = some a →
      a.fc2.weight.length = d ∧ a.fc2.bias.length = d)
    (hff : ∀ a, Lr.ff_adapter = some a →
      a.fc2.weight.length = d ∧ a.fc2.bias.length = d)
    (noise : ℕ → ℕ → ℕ → ℕ → ℚ) (x : Tensor) (pad extra : Option Tensor)
    (hx : hasShape x s b d) :
    ∃ r, Lr.forward noise x none pad extra = some r ∧ hasShape r.1 s b d := by
  refine ⟨(ffnSubBlock Lr (noise 1) (noise 2) (selfAttnSubBlock Lr (noise 0) x pad extra).1,
           (selfAttnSubBlock Lr (noise 0) x pad extra).2), rfl, ?_⟩
  exact hasShape_ffnSubBlock Lr s b d f hnorm2 hfc1w hfc1b hfc2w hfc2b hff _ _ _
    (hasShape_selfAttnSubBlock Lr s b d hattn hnorm1 hsa _ x pad extra hx)

/-- Witness for C7 on a concrete layer and input of shape (1, 1, 1). -/
theorem c7_shape_preservation_witness :
    ∃ r, evalLayer.forward (fun _ _ _ _ => 0) [[[1]]] none none none = some r ∧
      hasShape r.1 1 1 1 :=
  c7_shape_preservation evalLayer 1 1 1 1
    (fun q pad extra h => h)
    (fun v => rfl) (fun v => rfl) rfl rfl rfl rfl
    (fun a h => nomatch h) (fun a h => nomatch h)
    (fun _ _ _ _ => 0) [[[1]]] none none
    (by simp [hasShape])
